import Mathlib

/-!
Verification development for the figmaxxing repository (a TypeScript CLI that
drives a headed browser with an injected synthetic wallet, an RPC-mediating
dispatcher, and a Figma capture-proxy bridge).

The definitions below are shallow embeddings of the repository's source:

* `rpcProxy`            — the `__rpcProxy` dispatcher of `setupRpcProxy`
                          (src/lib/rpc-proxy.ts, embedded as an explicit
                          if/else chain mirroring the `switch` statement);
* `tryDecodeUtf8`       — the helper of the same file;
* `formatWei`           — the helper of the same file;
* `submitCapture`       — the `__submitCapture` handler of `setupFigmaProxy`
                          (src/lib/capture.ts);
* `installInterposer`   — the in-page fetch-wrap step of
                          `injectCaptureToolbar` (src/lib/capture.ts);
* wallet-store functions (src/lib/wallet.ts);
* logger functions      (src/lib/logger.ts);
* `customChain`         — the custom-chain construction of the chain-picker
                          screen (`handleCustomIdSubmit` / `handleCustomRpcSubmit`);
* `emitRun`             — the injected provider's `emit` (src/lib/browser.ts
                          init script).

External JavaScript builtins and external libraries (viem signing, `fetch`,
`JSON.parse`, `JSON.stringify` pretty printing, `BigInt`, the regex engine,
`Date`) are modelled as explicit environment records whose fields are supplied
per theorem; all control flow, string formatting and data plumbing written in
the repository itself is translated directly.
-/

/-- JavaScript truthiness of a possibly-absent string (`undefined` and the
empty string are falsy, every other string is truthy). -/
def jsTruthy : Option String → Bool
  | none => false
  | some s => s ≠ ""

/-- JavaScript `a || b` on a possibly-absent string: the default is taken
when the value is `undefined` or the empty string. -/
def jsOr (a : Option String) (b : String) : String :=
  match a with
  | none => b
  | some s => if s = "" then b else s

/-- A minimal JSON-value type for dispatcher results. -/
inductive JVal where
  | jnull : JVal
  | jstr : String → JVal
  | jarr : List JVal → JVal
  | jobj : List (String × JVal) → JVal

/-- The transaction-object parameter of `eth_sendTransaction`
(`{to, data, value, gas}`, each field possibly absent; the source field `to`
is rendered `toAddr` because `to` is a Lean keyword). -/
structure TxParam where
  toAddr : Option String
  data : Option String
  value : Option String
  gas : Option String
deriving DecidableEq

/-- A value occurring in an RPC `params` array: a string, a transaction
object, or JavaScript `undefined` (produced by out-of-range indexing, as in
`const [message] = params` on an empty array). -/
inductive RpcParam where
  | undef : RpcParam
  | str : String → RpcParam
  | obj : TxParam → RpcParam
deriving DecidableEq

/-- A chain record `{id, name, hexId, rpc}` (src/lib/chains.ts / types.ts). -/
structure Chain where
  id : Nat
  name : String
  hexId : String
  rpc : String
deriving DecidableEq

/-- The per-session configuration visible to the dispatcher: the address
derived by `privateKeyToAccount(config.wallet.privateKey)` (the code answers
account methods with `account.address`), and the chain. -/
structure Config where
  accountAddress : String
  chain : Chain

/-- A JSON-RPC error object from the upstream node; `stringifyRpcError`
is `JSON.stringify` of it with the document order `code, message`. -/
structure RpcError where
  code : Int
  message : String
deriving DecidableEq

/-- JSON.stringify of an upstream `{code, message}` error object. -/
def stringifyRpcError (e : RpcError) : String :=
  "\x7b\"code\":" ++ toString e.code ++ ",\"message\":\"" ++ e.message ++ "\"\x7d"

/-- The upstream JSON-RPC response body, as seen after `response.json()`:
a possibly-absent (falsy) `.error` and a `.result` field. -/
structure UpstreamResp where
  error : Option RpcError
  result : JVal

/-- The JSON-RPC 2.0 request body built by the forwarding branch:
`{jsonrpc: '2.0', id: 1, method, params: params || []}`. -/
structure RpcBody where
  jsonrpc : String
  id : Nat
  method : String
  params : List RpcParam
deriving DecidableEq

/-- A parsed `eth_signTypedData_v4` payload, keeping exactly the parts the
dispatcher reads: `parsed.domain?.name`, `parsed.primaryType`, and the
pretty-printed `JSON.stringify(parsed.message, null, 2)` (the parse and the
pretty-print are JavaScript builtins, modelled atomically). -/
structure TypedData where
  domainName : Option String
  primaryType : Option String
  messageJson : String

/-- A TxRequest as constructed by the dispatcher before `events.emit`:
`{id, method, params, display, ...}` with the `resolve`/`reject`/`sign`
handles left implicit (the approver's behaviour is an environment field). -/
structure TxRequestData where
  id : Nat
  method : String
  params : List RpcParam
  display : List (String × RpcParam)
deriving DecidableEq

/-- What the approver eventually does with an emitted TxRequest. -/
inductive ApproverReply where
  | resolve : JVal → ApproverReply
  | reject : String → ApproverReply

/-- The page-visible outcome of awaiting the approval promise: `resolve v`
resolves the dispatch with `v`; `reject e` makes the outer catch re-throw an
error with the same message. -/
def applyReply : ApproverReply → Except String JVal
  | .resolve v => .ok v
  | .reject e => .error e

/-- Observable host-side effects of one dispatch: a `tx:request` emission on
the approver bus, or an HTTP POST to the chain RPC endpoint. -/
inductive Effect where
  | emitTx : TxRequestData → Effect
  | httpPost : String → RpcBody → Effect

/-- The environment of one dispatch: the approver-bus listener count, the
approver's behaviour, the external signing/parsing/network primitives
(viem, `JSON.parse`, `fetch`, `BigInt`, float rendering). -/
structure RpcEnv where
  txListenerCount : Nat
  approver : TxRequestData → ApproverReply
  signMessage : RpcParam → Except String String
  signTypedData : TypedData → Except String String
  sendTransaction : TxParam → Except String String
  parseTypedData : RpcParam → Except String TypedData
  upstream : RpcBody → Except String UpstreamResp
  parseBigInt : String → Except String Int
  showEth : Int → String

/-- Whether the first list is a prefix of the second (Boolean). -/
def listIsPrefix : List Char → List Char → Bool
  | [], _ => true
  | _ :: _, [] => false
  | p :: ps, c :: cs => p = c && listIsPrefix ps cs

/-- JavaScript `s.startsWith(pre)` (also the behaviour of Lean's
`String.startsWith`, re-implemented over character lists so that it
evaluates by kernel reduction). -/
def jsStartsWith (s pre : String) : Bool := listIsPrefix pre.toList s.toList

/-- Hex value of one character, as used by `Buffer.from(_, 'hex')`. -/
def hexDigitVal (c : Char) : Option Nat :=
  if '0' ≤ c ∧ c ≤ '9' then some (c.toNat - 48)
  else if 'a' ≤ c ∧ c ≤ 'f' then some (c.toNat - 87)
  else if 'A' ≤ c ∧ c ≤ 'F' then some (c.toNat - 55)
  else none

/-- `Buffer.from(s, 'hex')`: decode hex-digit pairs, truncating at the first
pair that is not two hex digits (Node semantics; a trailing odd digit is
dropped). -/
def bufferFromHex : List Char → List Nat
  | c1 :: c2 :: rest =>
    match hexDigitVal c1, hexDigitVal c2 with
    | some h, some l => (16 * h + l) :: bufferFromHex rest
    | _, _ => []
  | _ => []

/-- Whether a byte lies in the character class of the printability regex
`^[\x20-\x7E\n\r\t]+$` (space through tilde, or tab/LF/CR). -/
def printableByte (b : Nat) : Bool :=
  (0x20 ≤ b ∧ b ≤ 0x7E) ∨ b = 9 ∨ b = 10 ∨ b = 13

/-- The string whose characters are the given ASCII byte values. -/
def asciiOfBytes (bs : List Nat) : String :=
  String.mk (bs.map Char.ofNat)

/-- `tryDecodeUtf8` from the dispatcher source: if the input starts with
`0x`, hex-decode the payload, UTF-8-decode it and return the text when the
printability regex accepts it, otherwise return the input unchanged.

The UTF-8 decode followed by the regex test is modelled at the byte level:
the regex accepts the decoded text iff the byte list is non-empty and every
byte lies in the class (a byte `≥ 0x80` decodes to a character `≥ U+0080` or
to U+FFFD, both outside the class; when every byte is `< 0x80` the UTF-8
decode is the bytewise ASCII decode). -/
def tryDecodeUtf8 (hex : String) : String :=
  if jsStartsWith hex "0x" then
    let bytes := bufferFromHex (hex.toList.drop 2)
    if bytes ≠ [] ∧ bytes.all printableByte then asciiOfBytes bytes else hex
  else hex

/-- `tryDecodeUtf8` lifted to an arbitrary params entry: on a non-string the
`hex.startsWith` call throws a TypeError, the surrounding catch returns the
input unchanged. -/
def tryDecodeUtf8P : RpcParam → RpcParam
  | .str s => .str (tryDecodeUtf8 s)
  | p => p

/-- `formatWei` from the dispatcher source: `!value`, `'0x0'` and `'0x'`
yield `0 ETH`; otherwise `BigInt(value)` is rendered as a float with an
` ETH` suffix, and a `BigInt` failure returns the raw value. -/
def formatWei (env : RpcEnv) (value : Option String) : String :=
  if ¬ jsTruthy value then "0 ETH"
  else
    let v := value.getD ""
    if v = "0x0" ∨ v = "0x" then "0 ETH"
    else
      match env.parseBigInt v with
      | .ok bi => env.showEth bi ++ " ETH"
      | .error _ => v

/-- `JS || 'Unknown'` on a possibly-absent string field. -/
def orUnknown (s : Option String) : String := jsOr s "Unknown"

/-- Extraction of `const [tx] = params` followed by a property access:
`undefined` throws a TypeError; a string primitive has no such properties so
all fields read as `undefined`; an object yields its fields. -/
def getTxParam (params : List RpcParam) : Except String TxParam :=
  match params.getD 0 .undef with
  | .undef => .error "Cannot read properties of undefined"
  | .str _ => .ok ⟨none, none, none, none⟩
  | .obj t => .ok t

/-- The `data` display field of an `eth_sendTransaction` TxRequest:
`` `${tx.data.slice(0, 20)}...  (${bytes} bytes)` `` when `tx.data` is
truthy, `(none)` otherwise; the byte count is
`Math.floor((tx.data.length - 2) / 2)`. -/
def txDataDisplay (data : Option String) : String :=
  if jsTruthy data then
    let d := data.getD ""
    let dataBytes : Int := Int.fdiv ((d.length : Int) - 2) 2
    String.mk (d.toList.take 20) ++ "...  (" ++ toString dataBytes ++ " bytes)"
  else "(none)"

/-- The display map of an `eth_sendTransaction` TxRequest. -/
def txDisplay (env : RpcEnv) (t : TxParam) : List (String × RpcParam) :=
  [("to", .str (jsOr t.toAddr "(contract creation)")),
   ("value", .str (formatWei env t.value)),
   ("data", .str (txDataDisplay t.data)),
   ("gas", .str (jsOr t.gas "auto"))]

/-- The display map of an `eth_signTypedData_v4` TxRequest. -/
def typedDisplay (td : TypedData) : List (String × RpcParam) :=
  [("domain", .str (orUnknown td.domainName)),
   ("primaryType", .str (orUnknown td.primaryType)),
   ("data", .str td.messageJson)]

/-- Result of one `__rpcProxy` dispatch: the new value of the global
`requestIdCounter`, the list of observable effects in order, and the outcome
delivered to the page (the outer catch re-throws every failure as an error
whose message is the original message, so failures are plain messages). -/
structure DispatchOut where
  ctr : Nat
  effects : List Effect
  outcome : Except String JVal

/-- The approval-gated signing skeleton shared by the three signing
branches: with at least one `tx:request` listener, build the TxRequest with
a fresh id, emit it and await the approver; otherwise sign immediately. -/
def signingBranch (env : RpcEnv) (ctr : Nat) (method : String)
    (params : List RpcParam) (display : List (String × RpcParam))
    (sign : Except String String) : DispatchOut :=
  if 0 < env.txListenerCount then
    let req : TxRequestData := ⟨ctr + 1, method, params, display⟩
    ⟨ctr + 1, [.emitTx req], applyReply (env.approver req)⟩
  else
    ⟨ctr, [], sign.map .jstr⟩

/-- The `__rpcProxy` dispatcher of `setupRpcProxy`, translated case by case
from the `switch` statement (fall-through groups become disjunctions). -/
def rpcProxy (cfg : Config) (env : RpcEnv) (ctr : Nat) (method : String)
    (params : List RpcParam) : DispatchOut :=
  if method = "eth_accounts" ∨ method = "eth_requestAccounts" then
    ⟨ctr, [], .ok (.jarr [.jstr cfg.accountAddress])⟩
  else if method = "eth_chainId" then
    ⟨ctr, [], .ok (.jstr cfg.chain.hexId)⟩
  else if method = "net_version" then
    ⟨ctr, [], .ok (.jstr (toString cfg.chain.id))⟩
  else if method = "wallet_requestPermissions" ∨ method = "wallet_getPermissions" then
    ⟨ctr, [], .ok (.jarr [.jobj [("parentCapability", .jstr "eth_accounts")]])⟩
  else if method = "wallet_switchEthereumChain" ∨ method = "wallet_addEthereumChain" then
    ⟨ctr, [], .ok .jnull⟩
  else if method = "personal_sign" then
    let message := params.getD 0 .undef
    signingBranch env ctr method params
      [("message", tryDecodeUtf8P message)] (env.signMessage message)
  else if method = "eth_signTypedData_v4" then
    match env.parseTypedData (params.getD 1 .undef) with
    | .error e => ⟨ctr, [], .error e⟩
    | .ok parsed =>
      signingBranch env ctr method params (typedDisplay parsed)
        (env.signTypedData parsed)
  else if method = "eth_sendTransaction" then
    if 0 < env.txListenerCount then
      match getTxParam params with
      | .error e => ⟨ctr, [], .error e⟩
      | .ok t =>
        let req : TxRequestData := ⟨ctr + 1, method, params, txDisplay env t⟩
        ⟨ctr + 1, [.emitTx req], applyReply (env.approver req)⟩
    else
      match getTxParam params with
      | .error e => ⟨ctr, [], .error e⟩
      | .ok t => ⟨ctr, [], (env.sendTransaction t).map .jstr⟩
  else
    let body : RpcBody := ⟨"2.0", 1, method, params⟩
    let outcome :=
      match env.upstream body with
      | .error e => .error e
      | .ok resp =>
        match resp.error with
        | some err => .error (stringifyRpcError err)
        | none => .ok resp.result
    ⟨ctr, [.httpPost cfg.chain.rpc body], outcome⟩

/-- The TxRequests among a dispatch's effects. -/
def txEmits (effects : List Effect) : List TxRequestData :=
  effects.filterMap fun e =>
    match e with
    | .emitTx r => some r
    | _ => none

/-- The eight locally-answered methods of the dispatcher table. -/
def localMethods : List String :=
  ["eth_accounts", "eth_requestAccounts", "eth_chainId", "net_version",
   "wallet_requestPermissions", "wallet_getPermissions",
   "wallet_switchEthereumChain", "wallet_addEthereumChain"]

/-- The tabulated constant for each locally-answered method, written out
from the spec's §4.2 table (to be compared with the dispatcher). -/
def localAnswer (cfg : Config) (method : String) : JVal :=
  if method = "eth_accounts" ∨ method = "eth_requestAccounts" then
    .jarr [.jstr cfg.accountAddress]
  else if method = "eth_chainId" then .jstr cfg.chain.hexId
  else if method = "net_version" then .jstr (toString cfg.chain.id)
  else if method = "wallet_requestPermissions" ∨ method = "wallet_getPermissions" then
    .jarr [.jobj [("parentCapability", .jstr "eth_accounts")]]
  else .jnull

/-- All eleven methods handled by a named `switch` case; anything else takes
the forwarding default branch. -/
def handledMethods : List String :=
  localMethods ++ ["personal_sign", "eth_signTypedData_v4", "eth_sendTransaction"]

/-- Events emitted on the host event bus by the capture bridge. -/
inductive CapEvent where
  | claimUrl : String → CapEvent
  | nextId : String → CapEvent
  | submitted : String → CapEvent
deriving DecidableEq

/-- The `{claimUrl, nextCaptureId}` fields read off a successfully parsed
capture response (each possibly absent or empty, i.e. falsy). -/
structure ParsedCapture where
  claimUrl : Option String
  nextCaptureId : Option String

/-- Environment of one `__submitCapture` call: the upstream POST result text
(`fetch` + `response.text()`), `JSON.parse` on that text (`none` = throws),
and the first match of the regex
`https?://(www\.)?figma\.com/<non-space-quote-angle chars>` (regex engine is
a JS builtin; the pattern is recorded here). -/
structure CaptureEnv where
  captureResponse : String → String → String
  parseCaptureJson : String → Option ParsedCapture
  figmaUrlMatch : String → Option String

/-- The `__submitCapture` handler of `setupFigmaProxy` (the capture-bridge
version with response parsing): POST the body to the target URL, read the
text, emit `capture:claimUrl` / `capture:nextId` from the parsed JSON (or
`capture:claimUrl` from the regex fallback when the parse throws), then emit
`capture:submitted` with the raw text and return the text.  The returned
list is the bus-event trace in emission order. -/
def submitCapture (env : CaptureEnv) (targetUrl dataStr : String) :
    List CapEvent × String :=
  let text := env.captureResponse targetUrl dataStr
  let parseEvents :=
    match env.parseCaptureJson text with
    | some d =>
      (if jsTruthy d.claimUrl then [CapEvent.claimUrl (d.claimUrl.getD "")] else [])
        ++ (if jsTruthy d.nextCaptureId then [CapEvent.nextId (d.nextCaptureId.getD "")] else [])
    | none =>
      match env.figmaUrlMatch text with
      | some u => [CapEvent.claimUrl u]
      | none => []
  (parseEvents ++ [CapEvent.submitted text], text)

/-- Checks the claimed ordering `capture:submitted` before every
`capture:claimUrl` / `capture:nextId` of the same call: scanning the trace,
no claimUrl/nextId event may occur before a submitted event has occurred. -/
def submittedFirst : List CapEvent → Bool
  | [] => true
  | .submitted _ :: _ => true
  | .claimUrl _ :: _ => false
  | .nextId _ :: _ => false

/-- Count of `capture:submitted` events in a trace. -/
def countSubmitted (tr : List CapEvent) : Nat :=
  tr.countP fun e => match e with | .submitted _ => true | _ => false

/-- Count of `capture:claimUrl` events in a trace. -/
def countClaimUrl (tr : List CapEvent) : Nat :=
  tr.countP fun e => match e with | .claimUrl _ => true | _ => false

/-- The in-page `window.fetch` value: the page's original fetch, or the
capture interposer wrapped around an inner fetch (the wrapper routes
`mcp.figma.com` URLs through `__submitCapture` and delegates everything else
to the wrapped function). -/
inductive FetchImpl where
  | original : FetchImpl
  | wrapped : FetchImpl → FetchImpl
deriving DecidableEq

/-- The page state read and written by the interposer-install step:
`window.fetch` and the page-global `window.__fetchPatched` flag (absent on a
fresh page, modelled as `false`). -/
structure PageState where
  fetch : FetchImpl
  fetchPatched : Bool
deriving DecidableEq

/-- The fetch-interposer installation step of `injectCaptureToolbar`'s
in-page script: if `window.__fetchPatched` is unset, wrap `window.fetch`
and set the flag; otherwise do nothing. -/
def installInterposer (s : PageState) : PageState :=
  if s.fetchPatched then s
  else { fetch := .wrapped s.fetch, fetchPatched := true }

/-- Number of interposer layers around the original fetch. -/
def wrapDepth : FetchImpl → Nat
  | .original => 0
  | .wrapped f => wrapDepth f + 1

/-- A persisted wallet record `{name, address, privateKey}`. -/
structure WalletRec where
  name : String
  address : String
  privateKey : String
deriving DecidableEq

/-- The state of `<config-dir>/wallets.json`: absent, unreadable/unparsable,
or a readable JSON array of wallet records (`JSON.parse` returns exactly the
stored records, with no validation of their fields). -/
inductive WalletFile where
  | absent : WalletFile
  | malformed : WalletFile
  | content : List WalletRec → WalletFile

/-- External wallet primitives (viem): the key produced by
`generatePrivateKey()` and the address derivation of
`privateKeyToAccount(_).address`. -/
structure WalletEnv where
  generatedKey : String
  deriveAddress : String → String

/-- The canonical private-key form `/^0x[0-9a-fA-F]{64}$/`. -/
def isCanonicalKey (s : String) : Bool :=
  jsStartsWith s "0x" ∧ (s.toList.drop 2).length = 64
    ∧ (s.toList.drop 2).all fun c => (hexDigitVal c).isSome

/-- `loadWallets`: `[]` when the file does not exist; the parsed contents
when it parses; a corruption error otherwise. -/
def loadWallets : WalletFile → Except String (List WalletRec)
  | .absent => .ok []
  | .malformed => .error "Could not read wallet file. Delete it and create a new wallet."
  | .content ws => .ok ws

/-- `createWallet`: generate a key, derive its address, append to the loaded
list and save; returns the new wallet and the saved file. -/
def createWallet (env : WalletEnv) (name : String) (file : WalletFile) :
    Except String (WalletRec × WalletFile) :=
  let pk := env.generatedKey
  let w : WalletRec := ⟨name, env.deriveAddress pk, pk⟩
  match loadWallets file with
  | .error e => .error e
  | .ok ws => .ok (w, .content (ws ++ [w]))

/-- `importWallet`: reject a key that fails the canonical-form regex, else
derive the address, append and save. -/
def importWallet (env : WalletEnv) (name pk : String) (file : WalletFile) :
    Except String (WalletRec × WalletFile) :=
  if ¬ isCanonicalKey pk then
    .error "Invalid private key. Must be 0x followed by 64 hex characters."
  else
    let w : WalletRec := ⟨name, env.deriveAddress pk, pk⟩
    match loadWallets file with
    | .error e => .error e
    | .ok ws => .ok (w, .content (ws ++ [w]))

/-- `createEphemeralWallet`: a fresh wallet named `Ephemeral`, not saved. -/
def createEphemeralWallet (env : WalletEnv) : WalletRec :=
  ⟨"Ephemeral", env.deriveAddress env.generatedKey, env.generatedKey⟩

/-- The invariant claimed for stored wallets: the address is the one derived
from the private key, and the key is in canonical form. -/
def walletInvariant (env : WalletEnv) (w : WalletRec) : Prop :=
  w.address = env.deriveAddress w.privateKey ∧ isCanonicalKey w.privateKey

/-- A JavaScript `Date` as the logger uses it: its epoch milliseconds
(`getTime()`) and its `toISOString()` rendering. -/
structure JsDate where
  ms : Nat
  iso : String

/-- A clock supplying the successive `new Date()` values of the host
process, indexed by how many have been taken so far. -/
def Clock : Type := Nat → JsDate

/-- The logger's module state: the tick index into the clock, the module
globals `sessionFile` and `sessionStart`, and the lines appended to the
session file so far, in order. -/
structure LogSt where
  tick : Nat
  sessionFile : Option String
  sessionStart : Option JsDate
  lines : List String

/-- The initial logger state (fresh process, empty file). -/
def logInit : LogSt := ⟨0, none, none, []⟩

/-- Take the next `new Date()` from the clock. -/
def nowDate (clock : Clock) (s : LogSt) : JsDate × LogSt :=
  (clock s.tick, { s with tick := s.tick + 1 })

/-- The per-session file name: the start timestamp's ISO rendering with
every `:` and `.` replaced by `-` (the regex `/[:.]/g`), plus `.log`. -/
def sessionFileName (iso : String) : String :=
  String.mk (iso.toList.map fun c => if c = ':' ∨ c = '.' then '-' else c) ++ ".log"

/-- `startSession`: record the start date, open the per-session file and
append the line `Session started: <iso>` (written with a bare
`appendFileSync`, not through `log`). -/
def startSession (clock : Clock) (s : LogSt) : LogSt :=
  let (d, s1) := nowDate clock s
  { s1 with
    sessionFile := some (sessionFileName d.iso)
    sessionStart := some d
    lines := s1.lines ++ ["Session started: " ++ d.iso] }

/-- `log`: start a session if none is active, then append
`[<iso>] <message>` with a fresh timestamp. -/
def logMsg (clock : Clock) (s : LogSt) (message : String) : LogSt :=
  let s1 := if s.sessionFile = none then startSession clock s else s
  let (d, s2) := nowDate clock s1
  { s2 with lines := s2.lines ++ ["[" ++ d.iso ++ "] " ++ message] }

/-- `endSession`: with an active session, take the end date, append the
`Session ended` and `Duration: <m>m <s>s` lines (each through `log`, so each
carries its own bracketed timestamp), optionally the `Figma URL` line, and
clear the session globals; without one, do nothing. -/
def endSession (clock : Clock) (s : LogSt) (figmaUrl : Option String) : LogSt :=
  match s.sessionFile, s.sessionStart with
  | some _, some start =>
    let (endD, s1) := nowDate clock s
    let durationMs := endD.ms - start.ms
    let mins := durationMs / 60000
    let secs := durationMs % 60000 / 1000
    let s2 := logMsg clock s1 ("Session ended: " ++ endD.iso)
    let s3 := logMsg clock s2 ("Duration: " ++ toString mins ++ "m " ++ toString secs ++ "s")
    let s4 := match figmaUrl with
      | some u => logMsg clock s3 ("Figma URL: " ++ u)
      | none => s3
    { s4 with sessionFile := none, sessionStart := none }
  | _, _ => s

/-- Whether a log line has the claimed shape `[<timestamp>] <message>`. -/
def isBracketLine (s : String) : Prop :=
  ∃ ts msg, s = "[" ++ ts ++ "] " ++ msg

/-- Leading decimal digits of a character list, `none` when the first
character is not a digit (the NaN case of `parseInt`). -/
def leadingDigits (cs : List Char) : Option Nat :=
  let ds := cs.takeWhile Char.isDigit
  if ds = [] then none
  else some (ds.foldl (fun a c => a * 10 + (c.toNat - 48)) 0)

/-- `parseInt(s, 10)`: skip leading whitespace, take an optional sign and
then the maximal run of leading decimal digits; `none` is `NaN`.  (JS
numbers are floats; the claims stay far below 2^53, where `parseInt` is
exact, so the model is exact-integer.) -/
def jsParseInt (s : String) : Option Int :=
  let cs := s.toList.dropWhile fun c => c = ' ' ∨ c = '\t' ∨ c = '\n' ∨ c = '\r'
  match cs with
  | '-' :: rest => (leadingDigits rest).map fun n => -(n : Int)
  | '+' :: rest => (leadingDigits rest).map fun n => (n : Int)
  | _ => (leadingDigits cs).map fun n => (n : Int)

/-- Lowercase hex rendering of a positive number, as
`Number.prototype.toString(16)` produces for positive integers
(`Nat.toDigits` uses the lowercase digit characters `0-9a-f`). -/
def natToHex (n : Nat) : String :=
  String.mk (Nat.toDigits 16 n)

/-- The custom-chain construction of the chain-picker screen, composing
`handleCustomIdSubmit` (id must parse and be positive, else an error is
shown and the flow stops) with `handleCustomRpcSubmit` (URL must start with
`http://` or `https://`; the chain is then built with the computed hexId).
`none` means the flow does not construct a chain. -/
def customChain (idInput rpcInput : String) : Option Chain :=
  match jsParseInt idInput with
  | none => none
  | some id =>
    if id ≤ 0 then none
    else if jsStartsWith rpcInput "http://" ∨ jsStartsWith rpcInput "https://" then
      some { id := id.toNat
             name := "Custom (" ++ toString id ++ ")"
             hexId := "0x" ++ natToHex id.toNat
             rpc := rpcInput }
    else none

/-- One step of the injected provider's `emit` trace: callback number `i`
was invoked; or its exception was logged by the catch handler. -/
inductive EmitStep where
  | invoked : Nat → EmitStep
  | consoleError : Nat → String → EmitStep
deriving DecidableEq

/-- The `try { fn(...args) } catch (e) { console.error(e) }` body applied to
callback `i`, whose behaviour on the emitted args is `r` (`.error` models a
thrown exception).  The callback is invoked either way; a throw is caught
and logged, never propagated. -/
def tryCatchLog (i : Nat) (r : Except String Unit) : List EmitStep :=
  match r with
  | .ok _ => [.invoked i]
  | .error e => [.invoked i, .consoleError i e]

/-- `(listeners[event] || []).forEach(fn => { try ... catch ... })` of the
injected provider's `emit`, producing the invocation trace in the `Except`
monad so that an uncaught exception would surface as `.error`; `behaviors`
lists, in registration order, what each registered callback does when called
with the emitted args. -/
def emitRun (i : Nat) (behaviors : List (Except String Unit)) :
    Except String (List EmitStep) :=
  match behaviors with
  | [] => .ok []
  | r :: rest => do
    let steps := tryCatchLog i r
    let tail ← emitRun (i + 1) rest
    .ok (steps ++ tail)

/-- `emit` over the callbacks registered for one event. -/
def emitEvent (behaviors : List (Except String Unit)) : Except String (List EmitStep) :=
  emitRun 0 behaviors

/-- `listeners[event] || []`: the callbacks registered for an event in the
provider's listeners-by-event map. -/
def getListeners (m : List (String × List (Except String Unit))) (event : String) :
    List (Except String Unit) :=
  (m.lookup event).getD []

/-- Polygon, as in the chain registry and scenario S1. -/
def chainPolygon : Chain := ⟨137, "Polygon", "0x89", "https://polygon-rpc.com"⟩

/-- A concrete session configuration for scenario-style instances. -/
def cfgEx : Config := ⟨"0xabcabc", chainPolygon⟩

/-- A concrete dispatch environment with no approver listener; its
`JSON.parse` rejects every input (as it does on any non-JSON string). -/
def envBase : RpcEnv where
  txListenerCount := 0
  approver := fun _ => .reject "no approver"
  signMessage := fun _ => .ok "0xSIG"
  signTypedData := fun _ => .ok "0xSIG"
  sendTransaction := fun _ => .ok "0xTXHASH"
  parseTypedData := fun _ => .error "Unexpected token o in JSON at position 1"
  upstream := fun _ => .ok ⟨none, .jnull⟩
  parseBigInt := fun _ => .error "Cannot convert to a BigInt"
  showEth := fun _ => "0"

/-- The same environment with one attached approver that resolves every
request with the signature `0xSIG` (scenario S3). -/
def envApprove : RpcEnv :=
  { envBase with txListenerCount := 1, approver := fun _ => .resolve (.jstr "0xSIG") }

/-- An environment whose upstream node answers every forwarded call with
the JSON-RPC error `{"code":-32000,"message":"boom"}` (scenario S5). -/
def envBoom : RpcEnv :=
  { envBase with upstream := fun _ => .ok ⟨some ⟨-32000, "boom"⟩, .jnull⟩ }

/-- An environment whose upstream node answers every forwarded call with
the result `"0x10"` (scenario S4). -/
def envForward : RpcEnv :=
  { envBase with upstream := fun _ => .ok ⟨none, .jstr "0x10"⟩ }

/-- The capture response body of scenario S6. -/
def capText : String :=
  "\x7b\"claimUrl\":\"https://figma.com/file/XYZ\",\"nextCaptureId\":\"u-2\"\x7d"

/-- A concrete capture environment: the upstream submit endpoint returns
`capText`, which `JSON.parse` reads back as its two fields. -/
def envCap : CaptureEnv where
  captureResponse := fun _ _ => capText
  parseCaptureJson := fun t =>
    if t = capText then some ⟨some "https://figma.com/file/XYZ", some "u-2"⟩ else none
  figmaUrlMatch := fun _ => none

/-- A canonical-form private key for wallet instances. -/
def goodKey : String := "0x" ++ String.mk (List.replicate 64 'a')

/-- A concrete wallet environment whose generator yields `goodKey`. -/
def envW : WalletEnv := ⟨goodKey, fun _ => "0xADDR"⟩

/-- A readable wallets.json whose stored record was not written by this
store: junk private key, unrelated address. -/
def badWalletFile : WalletFile := .content [⟨"x", "0xdead", "junk"⟩]

/-- A concrete ISO-timestamp stream. -/
def isoAt (n : Nat) : String := "2024-01-01T00:00:00.00" ++ toString n ++ "Z"

/-- A concrete clock: one second per `new Date()` call. -/
def clockEx : Clock := fun n => ⟨n * 1000, isoAt n⟩

/-- Reduction of the dispatcher at `personal_sign`. -/
theorem rpcProxy_personal_sign (cfg : Config) (env : RpcEnv) (ctr : Nat)
    (params : List RpcParam) :
    rpcProxy cfg env ctr "personal_sign" params =
      signingBranch env ctr "personal_sign" params
        [("message", tryDecodeUtf8P (params.getD 0 .undef))]
        (env.signMessage (params.getD 0 .undef)) := rfl

/-- C5: the in-page fetch interposer is idempotent: it is guarded by the
page-global `__fetchPatched` flag, so running the injection page script a
second time changes nothing, and from a fresh page two runs leave exactly
one layer of wrapping around the original `window.fetch`. -/
theorem interposer_idempotent :
    (∀ s : PageState, installInterposer (installInterposer s) = installInterposer s) ∧
    installInterposer (installInterposer ⟨.original, false⟩) =
      ⟨.wrapped .original, true⟩ ∧
    wrapDepth (installInterposer (installInterposer ⟨.original, false⟩)).fetch = 1 := by
  refine ⟨?_, rfl, rfl⟩
  intro s
  by_cases h : s.fetchPatched
  · simp [installInterposer, h]
  · simp [installInterposer, h]

/-- Specification of `emitRun`: it never propagates an exception, every
callback is invoked, and every thrown exception is logged. -/
theorem emitRun_ok (i : Nat) (behaviors : List (Except String Unit)) :
    ∃ tr, emitRun i behaviors = .ok tr ∧
      (∀ j, j < behaviors.length → EmitStep.invoked (i + j) ∈ tr) ∧
      (∀ j e, behaviors.get? j = some (.error e) →
        EmitStep.consoleError (i + j) e ∈ tr) := by
  induction behaviors generalizing i with
  | nil => exact ⟨[], rfl, by simp, by simp⟩
  | cons r rest ih =>
    obtain ⟨tr, h1, h2, h3⟩ := ih (i + 1)
    refine ⟨tryCatchLog i r ++ tr, by simp only [emitRun, h1]; rfl, ?_, ?_⟩
    · intro j hj
      cases j with
      | zero =>
        have : EmitStep.invoked i ∈ tryCatchLog i r := by
          cases r <;> simp [tryCatchLog]
        simpa using List.mem_append_left tr this
      | succ j' =>
        have hm := h2 j' (by simpa [Nat.succ_lt_succ_iff] using hj)
        have he : i + (j' + 1) = i + 1 + j' := by omega
        rw [he]
        exact List.mem_append_right _ hm
    · intro j e hj
      cases j with
      | zero =>
        have hr : r = .error e := by simpa using hj
        subst hr
        exact List.mem_append_left tr (by simp [tryCatchLog])
      | succ j' =>
        have hm := h3 j' e (by simpa using hj)
        have he : i + (j' + 1) = i + 1 + j' := by omega
        rw [he]
        exact List.mem_append_right _ hm

/-- C10: `emit` on the injected provider invokes every callback registered
for the event even when an earlier callback throws; each exception is caught
and logged to the console, and `emit` itself never throws. -/
theorem provider_emit_resilient
    (m : List (String × List (Except String Unit))) (event : String) :
    ∃ tr, emitEvent (getListeners m event) = .ok tr ∧
      (∀ j, j < (getListeners m event).length → EmitStep.invoked j ∈ tr) ∧
      (∀ j e, (getListeners m event).get? j = some (.error e) →
        EmitStep.consoleError j e ∈ tr) := by
  obtain ⟨tr, h1, h2, h3⟩ := emitRun_ok 0 (getListeners m event)
  refine ⟨tr, h1, fun j hj => ?_, fun j e he => ?_⟩
  · simpa using h2 j hj
  · simpa using h3 j e he

/-- Witness for C10: two listeners on `accountsChanged`, the first throws;
both are invoked and the exception is logged. -/
theorem provider_emit_resilient_witness :
    ∃ tr, emitEvent (getListeners
        [("accountsChanged", [Except.error "boom", Except.ok ()])]
        "accountsChanged") = .ok tr ∧
      EmitStep.invoked 0 ∈ tr ∧ EmitStep.invoked 1 ∈ tr ∧
      EmitStep.consoleError 0 "boom" ∈ tr := by
  obtain ⟨tr, h1, h2, h3⟩ := provider_emit_resilient
    [("accountsChanged", [Except.error "boom", Except.ok ()])] "accountsChanged"
  exact ⟨tr, h1, h2 0 (by decide), h2 1 (by decide), h3 0 "boom" (by rfl)⟩

/-- C2: every locally-answered method returns its tabulated constant, with
no effects (no network I/O, nothing emitted on the approver bus) and no
counter change. -/
theorem rpc_local_constants (cfg : Config) (env : RpcEnv) (ctr : Nat)
    (params : List RpcParam) (method : String) (h : method ∈ localMethods) :
    rpcProxy cfg env ctr method params = ⟨ctr, [], .ok (localAnswer cfg method)⟩ := by
  simp only [localMethods, List.mem_cons, List.not_mem_nil, or_false] at h
  rcases h with rfl | rfl | rfl | rfl | rfl | rfl | rfl | rfl <;> rfl

/-- Witness for C2, scenario S1: address `0xabcabc`, chain 137. -/
theorem rpc_local_constants_witness :
    rpcProxy cfgEx envBase 0 "eth_requestAccounts" [] =
      ⟨0, [], .ok (.jarr [.jstr "0xabcabc"])⟩ ∧
    rpcProxy cfgEx envBase 0 "eth_chainId" [] = ⟨0, [], .ok (.jstr "0x89")⟩ ∧
    rpcProxy cfgEx envBase 0 "net_version" [] = ⟨0, [], .ok (.jstr "137")⟩ := by
  refine ⟨?_, ?_, ?_⟩ <;>
    exact rpc_local_constants cfgEx envBase 0 [] _ (by simp [localMethods])

/-- Reduction of the dispatcher at any method outside the switch table. -/
theorem rpcProxy_default (cfg : Config) (env : RpcEnv) (ctr : Nat)
    (params : List RpcParam) (method : String) (h : method ∉ handledMethods) :
    rpcProxy cfg env ctr method params =
      ⟨ctr, [Effect.httpPost cfg.chain.rpc ⟨"2.0", 1, method, params⟩],
       match env.upstream ⟨"2.0", 1, method, params⟩ with
       | .error e => .error e
       | .ok resp =>
         match resp.error with
         | some err => .error (stringifyRpcError err)
         | none => .ok resp.result⟩ := by
  simp only [handledMethods, localMethods, List.mem_append, List.mem_cons,
    List.not_mem_nil, or_false, not_or] at h
  obtain ⟨⟨h1, h2, h3, h4, h5, h6, h7, h8⟩, h9, h10, h11⟩ := h
  simp [rpcProxy, h1, h2, h3, h4, h5, h6, h7, h8, h9, h10, h11]

/-- C3: every dispatched method outside the §4.2 table performs exactly one
HTTP POST to `chain.rpc` with the JSON-RPC 2.0 body carrying the original
method and params, and returns the response's `.result`; a non-empty
`.error` makes the call fail with the stringified server-side error, and a
network failure propagates its message. -/
theorem rpc_forwarding (cfg : Config) (env : RpcEnv) (ctr : Nat)
    (params : List RpcParam) (method : String) (h : method ∉ handledMethods) :
    (rpcProxy cfg env ctr method params).ctr = ctr ∧
    (rpcProxy cfg env ctr method params).effects =
      [Effect.httpPost cfg.chain.rpc ⟨"2.0", 1, method, params⟩] ∧
    (∀ resp, env.upstream ⟨"2.0", 1, method, params⟩ = .ok resp →
      (∀ err, resp.error = some err →
        (rpcProxy cfg env ctr method params).outcome =
          .error (stringifyRpcError err)) ∧
      (resp.error = none →
        (rpcProxy cfg env ctr method params).outcome = .ok resp.result)) ∧
    (∀ e, env.upstream ⟨"2.0", 1, method, params⟩ = .error e →
      (rpcProxy cfg env ctr method params).outcome = .error e) := by
  rw [rpcProxy_default cfg env ctr params method h]
  refine ⟨rfl, rfl, ?_, ?_⟩
  · intro resp hresp
    constructor
    · intro err herr
      simp [hresp, herr]
    · intro herr
      simp [hresp, herr]
  · intro e he
    simp [he]

/-- Witness for C3, scenarios S4 and S5: `eth_blockNumber` is forwarded with
the original method name; a `"0x10"` result is returned as-is, and the boom
error produces a rejection whose message contains `"boom"`. -/
theorem rpc_forwarding_witness :
    (rpcProxy cfgEx envForward 0 "eth_blockNumber" []).effects =
      [Effect.httpPost "https://polygon-rpc.com" ⟨"2.0", 1, "eth_blockNumber", []⟩] ∧
    (rpcProxy cfgEx envForward 0 "eth_blockNumber" []).outcome = .ok (.jstr "0x10") ∧
    (rpcProxy cfgEx envBoom 0 "eth_blockNumber" []).outcome =
      .error (stringifyRpcError ⟨-32000, "boom"⟩) ∧
    (∃ a b, stringifyRpcError ⟨-32000, "boom"⟩ = a ++ "boom" ++ b) := by
  have hmem : "eth_blockNumber" ∉ handledMethods := by decide
  obtain ⟨-, hf2, hf3, -⟩ := rpc_forwarding cfgEx envForward 0 [] "eth_blockNumber" hmem
  obtain ⟨-, -, hb3, -⟩ := rpc_forwarding cfgEx envBoom 0 [] "eth_blockNumber" hmem
  refine ⟨hf2, (hf3 ⟨none, .jstr "0x10"⟩ rfl).2 rfl, (hb3 ⟨some ⟨-32000, "boom"⟩, .jnull⟩ rfl).1 ⟨-32000, "boom"⟩ rfl, "\x7b\"code\":-32000,\"message\":\"", "\"\x7d", rfl⟩

/-- C8: the custom-chain flow accepts exactly when the entered id parses to
a positive integer and the RPC URL starts with `http://` or `https://`, and
the constructed chain has `hexId = "0x" ++` the lowercase hex of the parsed
id and `rpc` equal to the entered URL. -/
theorem custom_chain_spec (idInput rpcInput : String) :
    ((∃ c, customChain idInput rpcInput = some c) ↔
      ((∃ n : Int, jsParseInt idInput = some n ∧ 0 < n) ∧
       (jsStartsWith rpcInput "http://" = true ∨ jsStartsWith rpcInput "https://" = true))) ∧
    (∀ c, customChain idInput rpcInput = some c →
      c.hexId = "0x" ++ natToHex c.id ∧ c.rpc = rpcInput ∧
      jsParseInt idInput = some (c.id : Int) ∧ 0 < c.id) := by
  unfold customChain
  cases hp : jsParseInt idInput with
  | none => simp
  | some n =>
    dsimp only
    by_cases hn : n ≤ 0
    · rw [if_pos hn]
      constructor
      · simp only [reduceCtorEq, exists_false, false_iff, not_and, Option.some.injEq]
        rintro ⟨m, hm, hmpos⟩
        omega
      · intro c hc
        exact absurd hc (by simp)
    · by_cases hu : jsStartsWith rpcInput "http://" = true ∨ jsStartsWith rpcInput "https://" = true
      · have hu' : (jsStartsWith rpcInput "http://" ∨ jsStartsWith rpcInput "https://") := by
          rcases hu with h | h <;> simp [h]
        rw [if_neg hn, if_pos hu']
        constructor
        · constructor
          · intro _
            exact ⟨⟨n, rfl, by omega⟩, hu⟩
          · intro _
            exact ⟨_, rfl⟩
        · intro c hc
          obtain rfl := Option.some.inj hc
          refine ⟨rfl, rfl, ?_, ?_⟩
          · rw [Int.toNat_of_nonneg (by omega : (0:Int) ≤ n)]
          · show 0 < n.toNat
            omega
      · have hu' : ¬ (jsStartsWith rpcInput "http://" ∨ jsStartsWith rpcInput "https://") := by
          simp only [not_or] at hu ⊢
          exact ⟨by simpa using hu.1, by simpa using hu.2⟩
        rw [if_neg hn, if_neg hu']
        constructor
        · simp [hu]
        · intro c hc
          exact absurd hc (by simp)

/-- Witness for C8: id `255`, RPC `http://localhost:8545` yields the chain
with `hexId = "0xff"` and the entered RPC URL. -/
theorem custom_chain_spec_witness :
    customChain "255" "http://localhost:8545" =
      some ⟨255, "Custom (255)", "0xff", "http://localhost:8545"⟩ ∧
    ("0xff" : String) = "0x" ++ natToHex 255 ∧
    jsParseInt "255" = some 255 := by
  have h := (custom_chain_spec "255" "http://localhost:8545").2
    ⟨255, "Custom (255)", "0xff", "http://localhost:8545"⟩ (by decide)
  exact ⟨by decide, h.1, by simpa using h.2.2.1⟩

/-- Reduction of the dispatcher at `eth_signTypedData_v4`. -/
theorem rpcProxy_typedData (cfg : Config) (env : RpcEnv) (ctr : Nat)
    (params : List RpcParam) :
    rpcProxy cfg env ctr "eth_signTypedData_v4" params =
      (match env.parseTypedData (params.getD 1 .undef) with
       | .error e => ⟨ctr, [], .error e⟩
       | .ok parsed =>
         signingBranch env ctr "eth_signTypedData_v4" params
           (typedDisplay parsed) (env.signTypedData parsed)) := rfl

/-- Reduction of the dispatcher at `eth_sendTransaction`. -/
theorem rpcProxy_sendTx (cfg : Config) (env : RpcEnv) (ctr : Nat)
    (params : List RpcParam) :
    rpcProxy cfg env ctr "eth_sendTransaction" params =
      (if 0 < env.txListenerCount then
        match getTxParam params with
        | .error e => ⟨ctr, [], .error e⟩
        | .ok t =>
          ⟨ctr + 1,
           [.emitTx ⟨ctr + 1, "eth_sendTransaction", params, txDisplay env t⟩],
           applyReply (env.approver ⟨ctr + 1, "eth_sendTransaction", params, txDisplay env t⟩)⟩
      else
        match getTxParam params with
        | .error e => ⟨ctr, [], .error e⟩
        | .ok t => ⟨ctr, [], (env.sendTransaction t).map .jstr⟩) := rfl

/-- C1 (amended): with no `tx:request` listener no signing dispatch emits a
TxRequest and the admissible ones sign immediately; with a listener
attached, an admissible signing dispatch (`personal_sign` always,
`eth_signTypedData_v4` when its JSON payload parses, `eth_sendTransaction`
when its transaction parameter is present) emits exactly one TxRequest and
resolves to exactly the approver's `resolve` value (or rejects with the
approver's error message), while an inadmissible one rejects without
emitting anything. -/
theorem rpc_signing_approval (cfg : Config) (env : RpcEnv) (ctr : Nat)
    (params : List RpcParam) :
    (env.txListenerCount = 0 →
      (txEmits (rpcProxy cfg env ctr "personal_sign" params).effects = [] ∧
        (rpcProxy cfg env ctr "personal_sign" params).outcome =
          (env.signMessage (params.getD 0 .undef)).map .jstr) ∧
      (txEmits (rpcProxy cfg env ctr "eth_signTypedData_v4" params).effects = [] ∧
        ∀ td, env.parseTypedData (params.getD 1 .undef) = .ok td →
          (rpcProxy cfg env ctr "eth_signTypedData_v4" params).outcome =
            (env.signTypedData td).map .jstr) ∧
      (txEmits (rpcProxy cfg env ctr "eth_sendTransaction" params).effects = [] ∧
        ∀ t, getTxParam params = .ok t →
          (rpcProxy cfg env ctr "eth_sendTransaction" params).outcome =
            (env.sendTransaction t).map .jstr)) ∧
    (0 < env.txListenerCount →
      (∃ req, (rpcProxy cfg env ctr "personal_sign" params).effects =
          [Effect.emitTx req] ∧ req.method = "personal_sign" ∧
        (rpcProxy cfg env ctr "personal_sign" params).outcome =
          applyReply (env.approver req)) ∧
      (∀ td, env.parseTypedData (params.getD 1 .undef) = .ok td →
        ∃ req, (rpcProxy cfg env ctr "eth_signTypedData_v4" params).effects =
            [Effect.emitTx req] ∧ req.method = "eth_signTypedData_v4" ∧
          (rpcProxy cfg env ctr "eth_signTypedData_v4" params).outcome =
            applyReply (env.approver req)) ∧
      (∀ e, env.parseTypedData (params.getD 1 .undef) = .error e →
        txEmits (rpcProxy cfg env ctr "eth_signTypedData_v4" params).effects = [] ∧
        (rpcProxy cfg env ctr "eth_signTypedData_v4" params).outcome = .error e) ∧
      (∀ t, getTxParam params = .ok t →
        ∃ req, (rpcProxy cfg env ctr "eth_sendTransaction" params).effects =
            [Effect.emitTx req] ∧ req.method = "eth_sendTransaction" ∧
          (rpcProxy cfg env ctr "eth_sendTransaction" params).outcome =
            applyReply (env.approver req)) ∧
      (∀ e, getTxParam params = .error e →
        txEmits (rpcProxy cfg env ctr "eth_sendTransaction" params).effects = [] ∧
        (rpcProxy cfg env ctr "eth_sendTransaction" params).outcome = .error e)) := by
  constructor
  · intro h0
    have hnot : ¬ 0 < env.txListenerCount := by omega
    refine ⟨⟨?_, ?_⟩, ⟨?_, ?_⟩, ⟨?_, ?_⟩⟩
    · rw [rpcProxy_personal_sign]
      simp [signingBranch, hnot, txEmits]
    · rw [rpcProxy_personal_sign]
      simp [signingBranch, hnot]
    · rw [rpcProxy_typedData]
      cases hp : env.parseTypedData (params.getD 1 .undef) with
      | error e => simp [txEmits]
      | ok td => simp [signingBranch, hnot, txEmits]
    · intro td htd
      rw [rpcProxy_typedData, htd]
      simp [signingBranch, hnot]
    · rw [rpcProxy_sendTx, if_neg hnot]
      cases hp : getTxParam params with
      | error e => simp [txEmits]
      | ok t => simp [txEmits]
    · intro t ht
      rw [rpcProxy_sendTx, if_neg hnot, ht]
  · intro hpos
    refine ⟨?_, ?_, ?_, ?_, ?_⟩
    · rw [rpcProxy_personal_sign]
      simp only [signingBranch, if_pos hpos]
      exact ⟨_, rfl, rfl, rfl⟩
    · intro td htd
      rw [rpcProxy_typedData, htd]
      simp only [signingBranch, if_pos hpos]
      exact ⟨_, rfl, rfl, rfl⟩
    · intro e he
      rw [rpcProxy_typedData, he]
      exact ⟨rfl, rfl⟩
    · intro t ht
      rw [rpcProxy_sendTx, if_pos hpos, ht]
      exact ⟨_, rfl, rfl, rfl⟩
    · intro e he
      rw [rpcProxy_sendTx, if_pos hpos, he]
      exact ⟨rfl, rfl⟩

/-- Counterexample for C1 as stated: with one `tx:request` listener
attached, dispatching `eth_signTypedData_v4` with a second parameter that is
not valid JSON emits no TxRequest at all (the `JSON.parse` throw happens
before the listener check), contradicting "exactly one TxRequest is emitted
for that call". -/
theorem rpc_signing_approval_cex :
    envApprove.txListenerCount = 1 ∧
    txEmits (rpcProxy cfgEx envApprove 0 "eth_signTypedData_v4"
      [.str "0xabcabc", .str "not json"]).effects = [] ∧
    (rpcProxy cfgEx envApprove 0 "eth_signTypedData_v4"
      [.str "0xabcabc", .str "not json"]).outcome =
      .error "Unexpected token o in JSON at position 1" :=
  ⟨rfl, rfl, rfl⟩

/-- Witness for C1 (amended), scenarios S2 and S3: `personal_sign` of
`0x68656c6c6f` with an approver resolves to the approver's `0xSIG` after
exactly one TxRequest; without an approver it signs immediately with no
effects at all. -/
theorem rpc_signing_approval_witness :
    (∃ req, (rpcProxy cfgEx envApprove 0 "personal_sign"
        [.str "0x68656c6c6f"]).effects = [Effect.emitTx req] ∧
      req.method = "personal_sign" ∧
      (rpcProxy cfgEx envApprove 0 "personal_sign"
        [.str "0x68656c6c6f"]).outcome = applyReply (envApprove.approver req)) ∧
    (rpcProxy cfgEx envApprove 0 "personal_sign"
      [.str "0x68656c6c6f"]).outcome = .ok (.jstr "0xSIG") ∧
    (rpcProxy cfgEx envBase 0 "personal_sign" [.str "0x68656c6c6f"]).effects = [] ∧
    (rpcProxy cfgEx envBase 0 "personal_sign"
      [.str "0x68656c6c6f"]).outcome = .ok (.jstr "0xSIG") := by
  refine ⟨((rpc_signing_approval cfgEx envApprove 0
    [.str "0x68656c6c6f"]).2 (by decide)).1, rfl, rfl, rfl⟩

/-- C6 (amended): with an approver attached, a `personal_sign` dispatch
emits a TxRequest whose `display.message` is `tryDecodeUtf8` of the hex
payload; for a `0x`-prefixed payload the decoded text is kept exactly when
the payload decodes to at least one byte and every byte lies in the
printable / tab / CR / LF class (otherwise the original hex string is kept
unchanged); in particular `0x68656c6c6f` displays as `hello`. -/
theorem personal_sign_display (cfg : Config) (env : RpcEnv) (ctr : Nat)
    (msg : String) (rest : List RpcParam) (hl : 0 < env.txListenerCount) :
    txEmits (rpcProxy cfg env ctr "personal_sign" (.str msg :: rest)).effects =
      [⟨ctr + 1, "personal_sign", .str msg :: rest,
        [("message", .str (tryDecodeUtf8 msg))]⟩] ∧
    (∀ hex : String, jsStartsWith hex "0x" = true →
      ((bufferFromHex (hex.toList.drop 2) ≠ [] ∧
          (bufferFromHex (hex.toList.drop 2)).all printableByte = true) →
        tryDecodeUtf8 hex = asciiOfBytes (bufferFromHex (hex.toList.drop 2))) ∧
      (¬ (bufferFromHex (hex.toList.drop 2) ≠ [] ∧
          (bufferFromHex (hex.toList.drop 2)).all printableByte = true) →
        tryDecodeUtf8 hex = hex)) ∧
    tryDecodeUtf8 "0x68656c6c6f" = "hello" := by
  refine ⟨?_, ?_, by decide⟩
  · rw [rpcProxy_personal_sign]
    simp [signingBranch, if_pos hl, txEmits, tryDecodeUtf8P]
  · intro hex hhex
    constructor
    · intro hc
      rw [tryDecodeUtf8, if_pos hhex, if_pos hc]
    · intro hc
      rw [tryDecodeUtf8, if_pos hhex, if_neg hc]

/-- Counterexample for C6 as stated: the payload `0x` decodes to zero
bytes, so every byte of it (vacuously) lies in the printable class, yet the
emitted `display.message` is the original `"0x"` and not the UTF-8 decoding
`""` — the printability regex also requires at least one character. -/
theorem personal_sign_display_cex :
    txEmits (rpcProxy cfgEx envApprove 0 "personal_sign" [.str "0x"]).effects =
      [⟨1, "personal_sign", [.str "0x"], [("message", .str "0x")]⟩] ∧
    bufferFromHex ("0x".toList.drop 2) = [] ∧
    (∀ b ∈ bufferFromHex ("0x".toList.drop 2), printableByte b = true) ∧
    asciiOfBytes (bufferFromHex ("0x".toList.drop 2)) = "" ∧
    ("0x" : String) ≠ "" := by
  refine ⟨by decide, by decide, ?_, by decide, by decide⟩
  intro b hb
  simp only [show bufferFromHex ("0x".toList.drop 2) = [] from by decide] at hb
  exact absurd hb (List.not_mem_nil b)

/-- Witness for C6 (amended), scenario S3: the emitted request for
`0x68656c6c6f` displays `message = "hello"`. -/
theorem personal_sign_display_witness :
    txEmits (rpcProxy cfgEx envApprove 0 "personal_sign"
      [.str "0x68656c6c6f"]).effects =
      [⟨1, "personal_sign", [.str "0x68656c6c6f"],
        [("message", .str "hello")]⟩] := by
  have h := (personal_sign_display cfgEx envApprove 0 "0x68656c6c6f" []
    (by decide)).1
  exact h.trans (by decide)

/-- C4 (amended): every `__submitCapture` invocation emits
`capture:submitted` exactly once, with the raw response text, as the LAST
bus event of the call — any `capture:claimUrl` / `capture:nextId` derived
from the same response is emitted before it, and `capture:claimUrl` is
emitted at most once per invocation. -/
theorem capture_submitted_order (env : CaptureEnv) (targetUrl dataStr : String) :
    (∃ pre, (submitCapture env targetUrl dataStr).1 =
        pre ++ [CapEvent.submitted (submitCapture env targetUrl dataStr).2] ∧
      countSubmitted pre = 0 ∧ countClaimUrl pre ≤ 1) ∧
    countSubmitted (submitCapture env targetUrl dataStr).1 = 1 ∧
    countClaimUrl (submitCapture env targetUrl dataStr).1 ≤ 1 := by
  have hdef : submitCapture env targetUrl dataStr =
      ((match env.parseCaptureJson (env.captureResponse targetUrl dataStr) with
        | some d =>
          (if jsTruthy d.claimUrl then [CapEvent.claimUrl (d.claimUrl.getD "")] else [])
            ++ (if jsTruthy d.nextCaptureId then [CapEvent.nextId (d.nextCaptureId.getD "")] else [])
        | none =>
          match env.figmaUrlMatch (env.captureResponse targetUrl dataStr) with
          | some u => [CapEvent.claimUrl u]
          | none => [])
        ++ [CapEvent.submitted (env.captureResponse targetUrl dataStr)],
       env.captureResponse targetUrl dataStr) := rfl
  rw [hdef]
  cases hp : env.parseCaptureJson (env.captureResponse targetUrl dataStr) with
  | some d =>
    by_cases hc : jsTruthy d.claimUrl = true
    · by_cases hn : jsTruthy d.nextCaptureId = true
      · refine ⟨⟨_, rfl, ?_, ?_⟩, ?_, ?_⟩ <;>
          simp [hc, hn, countSubmitted, countClaimUrl]
      · refine ⟨⟨_, rfl, ?_, ?_⟩, ?_, ?_⟩ <;>
          simp [hc, hn, countSubmitted, countClaimUrl]
    · by_cases hn : jsTruthy d.nextCaptureId = true
      · refine ⟨⟨_, rfl, ?_, ?_⟩, ?_, ?_⟩ <;>
          simp [hc, hn, countSubmitted, countClaimUrl]
      · refine ⟨⟨_, rfl, ?_, ?_⟩, ?_, ?_⟩ <;>
          simp [hc, hn, countSubmitted, countClaimUrl]
  | none =>
    cases hm : env.figmaUrlMatch (env.captureResponse targetUrl dataStr) with
    | some u =>
      refine ⟨⟨_, rfl, ?_, ?_⟩, ?_, ?_⟩ <;>
        simp [countSubmitted, countClaimUrl]
    | none =>
      refine ⟨⟨_, rfl, ?_, ?_⟩, ?_, ?_⟩ <;>
        simp [countSubmitted, countClaimUrl]

/-- Counterexample for C4 as stated (scenario S6 input): the code emits
`capture:claimUrl` and `capture:nextId` BEFORE `capture:submitted` — the
trace starts with the claimUrl event, so `capture:submitted` is not emitted
before the events derived from the same response. -/
theorem capture_submitted_order_cex :
    (submitCapture envCap "https://mcp.figma.com/mcp/capture/c-1/submit" "data").1 =
      [CapEvent.claimUrl "https://figma.com/file/XYZ", CapEvent.nextId "u-2",
       CapEvent.submitted capText] ∧
    submittedFirst
      (submitCapture envCap "https://mcp.figma.com/mcp/capture/c-1/submit" "data").1
      = false :=
  ⟨by decide, by decide⟩

/-- C7 (amended): every wallet CONSTRUCTED by the store — by create,
import, or create-ephemeral — has its address derived from its private key
and a canonical-form key (given that the generator produces canonical keys,
as viem's `generatePrivateKey` does); `loadWallets`, however, returns the
parsed file contents entirely unvalidated. -/
theorem wallet_store_invariant (env : WalletEnv)
    (hk : isCanonicalKey env.generatedKey = true) :
    (∀ name file w fs, createWallet env name file = .ok (w, fs) →
      walletInvariant env w) ∧
    (∀ name pk file w fs, importWallet env name pk file = .ok (w, fs) →
      walletInvariant env w) ∧
    walletInvariant env (createEphemeralWallet env) ∧
    (∀ ws, loadWallets (.content ws) = .ok ws) := by
  refine ⟨?_, ?_, ⟨rfl, hk⟩, fun ws => rfl⟩
  · intro name file w fs h
    cases file with
    | absent =>
      simp only [createWallet, loadWallets, Except.ok.injEq, Prod.mk.injEq] at h
      obtain ⟨rfl, -⟩ := h
      exact ⟨rfl, hk⟩
    | malformed =>
      simp [createWallet, loadWallets] at h
    | content ws =>
      simp only [createWallet, loadWallets, Except.ok.injEq, Prod.mk.injEq] at h
      obtain ⟨rfl, -⟩ := h
      exact ⟨rfl, hk⟩
  · intro name pk file w fs h
    by_cases hpk : isCanonicalKey pk = true
    · cases file with
      | absent =>
        simp only [importWallet, hpk, loadWallets, not_true_eq_false,
          if_false, Except.ok.injEq, Prod.mk.injEq] at h
        obtain ⟨rfl, -⟩ := h
        exact ⟨rfl, hpk⟩
      | malformed =>
        simp [importWallet, hpk, loadWallets] at h
      | content ws =>
        simp only [importWallet, hpk, loadWallets, not_true_eq_false,
          if_false, Except.ok.injEq, Prod.mk.injEq] at h
        obtain ⟨rfl, -⟩ := h
        exact ⟨rfl, hpk⟩
    · simp [importWallet, hpk] at h

/-- Counterexample for C7 as stated: a readable wallets.json that was not
written by the store (junk private key) loads without any validation, so
the returned list contains a wallet violating both invariant conjuncts. -/
theorem wallet_store_invariant_cex :
    loadWallets badWalletFile = .ok [⟨"x", "0xdead", "junk"⟩] ∧
    isCanonicalKey "junk" = false :=
  ⟨rfl, by decide⟩

/-- Witness for C7 (amended): the ephemeral wallet constructed from the
canonical key `goodKey` satisfies the invariant. -/
theorem wallet_store_invariant_witness :
    walletInvariant envW ⟨"Ephemeral", "0xADDR", goodKey⟩ ∧
    isCanonicalKey goodKey = true := by
  have h := (wallet_store_invariant envW (by decide)).2.2.1
  exact ⟨h, by decide⟩

/-- C9 (amended): every line written through `log` has the form
`[<iso-timestamp>] <message>`; the per-session file is named by the
session-start ISO timestamp with every `:` and `.` replaced by `-` (plus the
`.log` extension); the FIRST line, however, is written directly by
`startSession` as `Session started: <iso>` without the bracketed prefix, and
`endSession` appends the session-end and duration lines (through `log`, so
bracketed). -/
theorem session_log_format (clock : Clock) :
    (∀ s message, ∃ iso rest, (logMsg clock s message).lines =
        rest ++ ["[" ++ iso ++ "] " ++ message]) ∧
    (∀ s, (startSession clock s).sessionFile =
        some (sessionFileName (clock s.tick).iso) ∧
      (startSession clock s).lines =
        s.lines ++ ["Session started: " ++ (clock s.tick).iso]) ∧
    (∀ s f start, s.sessionFile = some f → s.sessionStart = some start →
      (endSession clock s none).lines = s.lines ++
        ["[" ++ (clock (s.tick + 1)).iso ++ "] " ++
           ("Session ended: " ++ (clock s.tick).iso),
         "[" ++ (clock (s.tick + 2)).iso ++ "] " ++
           ("Duration: " ++ toString (((clock s.tick).ms - start.ms) / 60000) ++
             "m " ++ toString (((clock s.tick).ms - start.ms) % 60000 / 1000) ++ "s")]) ∧
    sessionFileName "2024-01-01T00:00:00.000Z" = "2024-01-01T00-00-00-000Z.log" := by
  refine ⟨?_, fun s => ⟨rfl, rfl⟩, ?_, by decide⟩
  · intro s message
    by_cases h : s.sessionFile = none
    · exact ⟨(clock (startSession clock s).tick).iso, (startSession clock s).lines,
        by simp [logMsg, h, nowDate]⟩
    · exact ⟨(clock s.tick).iso, s.lines, by simp [logMsg, h, nowDate]⟩
  · intro s f start hf hs
    unfold endSession
    simp only [hf, hs]
    simp [logMsg, nowDate, startSession, hf]

/-- Counterexample for C9 as stated: the first line of the session file is
written by `startSession` as `Session started: <iso>` — it does not have the
form `[<iso-timestamp>] <message>` (it does not even start with `[`). -/
theorem session_log_format_cex :
    (startSession clockEx logInit).lines = ["Session started: " ++ isoAt 0] ∧
    ¬ isBracketLine ("Session started: " ++ isoAt 0) := by
  refine ⟨rfl, ?_⟩
  rintro ⟨ts, msg, h⟩
  have h1 : ("[" ++ ts ++ "] " ++ msg).data.head? = some '[' := rfl
  rw [← h] at h1
  exact absurd h1 (by decide)

/-- Witness for C9 (amended): a full start/end round at the concrete clock
produces the unbracketed start line followed by bracketed end and duration
lines. -/
theorem session_log_format_witness :
    (endSession clockEx (startSession clockEx logInit) none).lines =
      ["Session started: " ++ isoAt 0,
       "[" ++ isoAt 2 ++ "] " ++ ("Session ended: " ++ isoAt 1),
       "[" ++ isoAt 3 ++ "] " ++ ("Duration: 0m 1s")] := by
  have h := (session_log_format clockEx).2.2.1 (startSession clockEx logInit)
    (sessionFileName (isoAt 0)) (clockEx 0) rfl rfl
  exact h.trans (by decide)
